import Mathlib

/-!
Verification of the post resolution and rendering pipeline of a static blog
(the single-post page script `post.js` and the listing page script).

The embedding translates the JavaScript sources into Lean:
JavaScript values that may be `undefined` become `Option`, promise rejection
and thrown exceptions become `Except`, the catch-all `try/catch` of `loadPost`
becomes a `match` on the `Except` result, and JavaScript truthiness tests on
strings and arrays are translated explicitly (a string is falsy exactly when
it is empty or absent; an array is always truthy, even when empty).
External collaborators (the browser fetch, JSON parsing, the markdown engine)
enter as parameters of an environment record, so every function stays
executable.
-/

/-- The catalog record of one post, as described by `posts/posts.json`:
`id`, `title`, `date` are always present, `tags`, `excerpt`, `image` are
optional fields (`undefined` when absent, modelled as `none`). -/
structure PostRecord where
  id : String
  title : String
  date : String
  tags : Option (List String)
  excerpt : Option String
  image : Option String
  deriving Repr, DecidableEq

/-- Outcome of an HTTP fetch that did resolve: a status code and a body.
`fetch` resolves even on a 404; only network failure rejects the promise. -/
structure HttpResponse where
  status : Nat
  body : String
  deriving Repr, DecidableEq

/-- Post lookup from `loadPost`: `posts.find((p) => p.id === postId)`.
`Array.prototype.find` returns the first element satisfying the predicate. -/
def resolvePost (posts : List PostRecord) (postId : String) : Option PostRecord :=
  posts.find? (fun p => p.id == postId)

/-- The first record of the duplicate-id counterexample catalog. -/
def dupFirst : PostRecord :=
  { id := "a", title := "First", date := "2024-01-01",
    tags := none, excerpt := none, image := none }

/-- The second (later) record of the duplicate-id counterexample catalog. -/
def dupSecond : PostRecord :=
  { id := "a", title := "Second", date := "2024-01-02",
    tags := none, excerpt := none, image := none }

/-- C1 counterexample: on a catalog whose two records share the id `"a"`,
`resolvePost` returns the FIRST record, not the later one: `Array.find`
stops at the earliest match, so the last-match-wins policy stated by the
spec does not hold. -/
theorem resolvePost_dup_returns_first :
    resolvePost [dupFirst, dupSecond] "a" = some dupFirst ∧ dupFirst ≠ dupSecond := by
  constructor
  · rfl
  · decide

/-- C1 (amended): for every catalog split as `l1 ++ q :: l2` where no record
of `l1` carries the requested id and `q` does, `resolvePost` returns `q`:
the EARLIEST matching record in catalog order (first-match-wins). -/
theorem resolvePost_first_match_wins
    (l1 l2 : List PostRecord) (q : PostRecord) (postId : String)
    (hq : q.id = postId) (hl1 : ∀ b ∈ l1, b.id ≠ postId) :
    resolvePost (l1 ++ q :: l2) postId = some q := by
  induction l1 with
  | nil =>
      simp only [List.nil_append, resolvePost, List.find?]
      have : (q.id == postId) = true := by simp [hq]
      simp [this]
  | cons b l ih =>
      have hb : b.id ≠ postId := hl1 b (by simp)
      have hrec := ih (fun c hc => hl1 c (by simp [hc]))
      simp only [List.cons_append, resolvePost, List.find?] at hrec ⊢
      have : (b.id == postId) = false := by simp [hb]
      simp [this, hrec]

/-- C1 witness: on the concrete catalog `[dupFirst, dupSecond]` the amended
theorem applies with `l1 = []` and yields the first record. -/
theorem resolvePost_first_match_wins_witness :
    resolvePost ([] ++ dupFirst :: [dupSecond]) "a" = some dupFirst :=
  resolvePost_first_match_wins [] [dupSecond] dupFirst "a" (by decide) (by decide)

/-- HTML template fragments below elide the indentation and newlines of the
JavaScript template literals; every tag, attribute and interpolation is kept
in source order. -/
def notFoundHtml : String :=
  "<h1>Post Not Found</h1><p>Sorry, the requested post could not be found.</p><a href=\"index.html\">Return to Home</a>"

/-- The post-tags block of the single-post header template:
`post.tags ? <div class="post-tags">...badges...</div> : ""`.
A present array is truthy even when empty, so `some []` still yields the
(empty) enclosing div, while an absent field yields nothing. -/
def postTagsHtml (post : PostRecord) : String :=
  match post.tags with
  | some ts =>
      "<div class=\"post-tags\">"
        ++ String.join (ts.map (fun tag => "<span class=\"post-tag\">" ++ tag ++ "</span>"))
        ++ "</div>"
  | none => ""

/-- The single-post fragment assigned to `postContainer.innerHTML`: header
(title, date, optional tag badges) followed by the rendered markdown body. -/
def composePost (post : PostRecord) (contentHtml : String) : String :=
  "<div class=\"post-header\"><h1 class=\"post-title\">" ++ post.title
    ++ "</h1><div class=\"post-metadata\"><span class=\"post-date\">" ++ post.date
    ++ "</span></div>" ++ postTagsHtml post
    ++ "</div><div class=\"post-content\">" ++ contentHtml ++ "</div>"

/-- Environment of one execution of `loadPost`: the query parameter, the
browser fetch (keyed by URL; `Except.error` is promise rejection, a 404 still
RESOLVES with `status = 404`), JSON parsing of the catalog body, the external
markdown engine, and the outcome of `Prism.highlightAllUnder`. -/
structure PostPageEnv where
  postId : Option String
  fetchUrl : String → Except String HttpResponse
  parseJson : String → Except String (List PostRecord)
  markedParse : String → String
  highlightAllOk : Except String Unit

/-- What `loadPost` leaves behind: either a navigation away, or an
`innerHTML` assignment to the post container (with the document title if the
happy path reached the final statement). -/
inductive PageOutcome where
  | redirect (url : String)
  | rendered (innerHtml : String) (docTitle : Option String)
  deriving Repr, DecidableEq

/-- The observable suspension points and terminal actions of `loadPost`, in
the order the sequential `await`s produce them. -/
inductive PageEvent where
  | depsReady
  | catalogFetched
  | catalogParsed
  | contentFetched
  | contentRead
  | domRendered
  | notFoundShown
  | redirected
  deriving Repr, DecidableEq

/-- `loadPost` after the dependency gate has resolved, together with its
event trace. Mirrors the source line by line: the `if (!postId)` redirect
(`URLSearchParams.get` yields the empty string for `?id=`, and both
`undefined` and the empty string are falsy, so an absent AND an empty id
redirect), then the `try` block (catalog fetch, `response.json()`,
`posts.find`, content fetch, `markdownResponse.text()`, `innerHTML`
assignment, `Prism.highlightAllUnder`, `document.title`), and the catch-all
that writes the fixed not-found fragment on any rejection or thrown error.
The code never inspects `markdownResponse.status`, so the body is used as
markdown content whatever the status was. -/
def loadPostRun (env : PostPageEnv) : PageOutcome × List PageEvent :=
  match env.postId with
  | none => (PageOutcome.redirect "index.html", [PageEvent.depsReady, PageEvent.redirected])
  | some postId =>
    if postId = "" then
      (PageOutcome.redirect "index.html", [PageEvent.depsReady, PageEvent.redirected])
    else
    match env.fetchUrl "posts/posts.json" with
    | Except.error _ =>
        (PageOutcome.rendered notFoundHtml none,
          [PageEvent.depsReady, PageEvent.notFoundShown])
    | Except.ok response =>
      match env.parseJson response.body with
      | Except.error _ =>
          (PageOutcome.rendered notFoundHtml none,
            [PageEvent.depsReady, PageEvent.catalogFetched, PageEvent.notFoundShown])
      | Except.ok posts =>
        match resolvePost posts postId with
        | none =>
            (PageOutcome.rendered notFoundHtml none,
              [PageEvent.depsReady, PageEvent.catalogFetched, PageEvent.catalogParsed,
               PageEvent.notFoundShown])
        | some post =>
          match env.fetchUrl ("posts/" ++ postId ++ ".md") with
          | Except.error _ =>
              (PageOutcome.rendered notFoundHtml none,
                [PageEvent.depsReady, PageEvent.catalogFetched, PageEvent.catalogParsed,
                 PageEvent.notFoundShown])
          | Except.ok markdownResponse =>
            let markdownContent := markdownResponse.body
            let html := composePost post (env.markedParse markdownContent)
            match env.highlightAllOk with
            | Except.error _ =>
                (PageOutcome.rendered notFoundHtml none,
                  [PageEvent.depsReady, PageEvent.catalogFetched, PageEvent.catalogParsed,
                   PageEvent.contentFetched, PageEvent.contentRead, PageEvent.domRendered,
                   PageEvent.notFoundShown])
            | Except.ok _ =>
                (PageOutcome.rendered html (some (post.title ++ " - My Blog")),
                  [PageEvent.depsReady, PageEvent.catalogFetched, PageEvent.catalogParsed,
                   PageEvent.contentFetched, PageEvent.contentRead, PageEvent.domRendered])

/-- The final DOM/navigation outcome of `loadPost`. -/
def loadPost (env : PostPageEnv) : PageOutcome :=
  (loadPostRun env).1

/-- `sub` occurs literally inside `s`. -/
def StrContains (s sub : String) : Prop :=
  ∃ a b : String, s = a ++ sub ++ b

/-- A concrete environment whose URL carries `?id=` — an EMPTY id string —
against a catalog whose only record has id `"a"`. -/
def envEmptyId : PostPageEnv :=
  { postId := some "",
    fetchUrl := fun _ => Except.ok { status := 200, body := "[]" },
    parseJson := fun _ => Except.ok [dupFirst],
    markedParse := fun s => s,
    highlightAllOk := Except.ok () }

/-- C2 counterexample: the empty id string matches no entry of the loaded
catalog, yet the render path does NOT produce the not-found fragment:
`if (!postId)` treats the empty string as falsy exactly like an absent id,
so `loadPost` redirects to the listing before any catalog fetch. -/
theorem loadPost_empty_id_redirects :
    envEmptyId.postId = some "" ∧
    (∀ p ∈ [dupFirst], p.id ≠ "") ∧
    loadPost envEmptyId = PageOutcome.redirect "index.html" ∧
    loadPost envEmptyId ≠ PageOutcome.rendered notFoundHtml none ∧
    PageEvent.catalogFetched ∉ (loadPostRun envEmptyId).2 := by
  refine ⟨rfl, by decide, rfl, by decide, by decide⟩

/-- C2 (amended): when the id is present and NONEMPTY (an empty id is falsy
and redirects like an absent one) and the catalog loads and parses but no
record matches, `posts.find` returns `undefined`, `loadPost` throws
`"Post not found"` into its own catch-all, and the render path ends with the
fixed not-found fragment (which carries the link back to the listing); the
outcome is a normal `innerHTML` assignment, never an escaped error. -/
theorem loadPost_miss_renders_not_found
    (env : PostPageEnv) (pid : String) (resp : HttpResponse) (posts : List PostRecord)
    (hpid : env.postId = some pid) (hne : pid ≠ "")
    (hfetch : env.fetchUrl "posts/posts.json" = Except.ok resp)
    (hparse : env.parseJson resp.body = Except.ok posts)
    (hmiss : ∀ p ∈ posts, p.id ≠ pid) :
    loadPost env = PageOutcome.rendered notFoundHtml none ∧
      StrContains notFoundHtml "<a href=\"index.html\">Return to Home</a>" := by
  have hfind : resolvePost posts pid = none := by
    simp only [resolvePost, List.find?_eq_none, beq_iff_eq]
    intro p hp
    exact hmiss p hp
  refine ⟨?_, ?_⟩
  · simp [loadPost, loadPostRun, hpid, hne, hfetch, hparse, hfind]
  · exact ⟨"<h1>Post Not Found</h1><p>Sorry, the requested post could not be found.</p>",
      "", rfl⟩

/-- A concrete environment whose catalog holds only the record with id
`"a"` while the page requests id `"missing"`. -/
def envMiss : PostPageEnv :=
  { postId := some "missing",
    fetchUrl := fun url =>
      if url == "posts/posts.json" then Except.ok { status := 200, body := "[]" }
      else Except.error "network",
    parseJson := fun _ => Except.ok [dupFirst],
    markedParse := fun s => s,
    highlightAllOk := Except.ok () }

/-- C2 witness: the miss theorem applied to the concrete `envMiss`. -/
theorem loadPost_miss_renders_not_found_witness :
    loadPost envMiss = PageOutcome.rendered notFoundHtml none ∧
      StrContains notFoundHtml "<a href=\"index.html\">Return to Home</a>" :=
  loadPost_miss_renders_not_found envMiss "missing" { status := 200, body := "[]" }
    [dupFirst] rfl (by decide) rfl rfl (by decide)

/-- C9: on the single-post path a catalog fetch rejection and a catalog
parse failure are both swallowed by the same catch-all as a lookup miss:
either way `loadPost` ends with the fixed not-found fragment, not an empty
listing and not a distinct degraded state, and nothing escapes the catch.
The id hypotheses (present and nonempty) delimit the runs that issue the
catalog fetch at all: an absent or empty id redirects beforehand, so no
catalog failure can arise there. -/
theorem loadPost_catalog_failure_not_found :
    (∀ (env : PostPageEnv) (pid e : String), env.postId = some pid → pid ≠ "" →
        env.fetchUrl "posts/posts.json" = Except.error e →
        loadPost env = PageOutcome.rendered notFoundHtml none) ∧
    (∀ (env : PostPageEnv) (pid : String) (resp : HttpResponse) (e : String),
        env.postId = some pid → pid ≠ "" →
        env.fetchUrl "posts/posts.json" = Except.ok resp →
        env.parseJson resp.body = Except.error e →
        loadPost env = PageOutcome.rendered notFoundHtml none) := by
  constructor
  · intro env pid e hpid hne hfetch
    simp [loadPost, loadPostRun, hpid, hne, hfetch]
  · intro env pid resp e hpid hne hfetch hparse
    simp [loadPost, loadPostRun, hpid, hne, hfetch, hparse]

/-- A concrete environment whose catalog fetch rejects (network failure). -/
def envCatFetchFail : PostPageEnv :=
  { postId := some "a",
    fetchUrl := fun _ => Except.error "network down",
    parseJson := fun _ => Except.error "unused",
    markedParse := fun s => s,
    highlightAllOk := Except.ok () }

/-- A concrete environment whose catalog body does not parse as JSON. -/
def envCatParseFail : PostPageEnv :=
  { postId := some "a",
    fetchUrl := fun _ => Except.ok { status := 200, body := "not json" },
    parseJson := fun _ => Except.error "SyntaxError",
    markedParse := fun s => s,
    highlightAllOk := Except.ok () }

/-- C9 witness: both halves of the catalog-failure theorem applied to
concrete environments. -/
theorem loadPost_catalog_failure_not_found_witness :
    loadPost envCatFetchFail = PageOutcome.rendered notFoundHtml none ∧
      loadPost envCatParseFail = PageOutcome.rendered notFoundHtml none :=
  ⟨loadPost_catalog_failure_not_found.1 envCatFetchFail "a" "network down" rfl
     (by decide) rfl,
   loadPost_catalog_failure_not_found.2 envCatParseFail "a"
     { status := 200, body := "not json" } "SyntaxError" rfl (by decide) rfl rfl⟩

/-- The record resolved in the content-404 scenario. -/
def post404 : PostRecord :=
  { id := "a", title := "Hello", date := "2024-01-01",
    tags := none, excerpt := none, image := none }

/-- Environment in which metadata resolution succeeds but the content
document `posts/a.md` is absent: its fetch RESOLVES with status 404 and the
404 page as body (per fetch semantics, only network failure rejects). -/
def env404 : PostPageEnv :=
  { postId := some "a",
    fetchUrl := fun url =>
      if url == "posts/posts.json" then Except.ok { status := 200, body := "[ catalog ]" }
      else if url == "posts/a.md" then
        Except.ok { status := 404, body := "<html>404 Not Found</html>" }
      else Except.error "network",
    parseJson := fun _ => Except.ok [post404],
    markedParse := fun s => s,
    highlightAllOk := Except.ok () }

set_option maxRecDepth 100000 in
/-- C3: `loadPost` never inspects `markdownResponse.status`, so when the
content fetch 404s after a successful metadata resolution, the render path
renders the fetched 404 response body as the post content instead of the
fixed not-found fragment. -/
theorem loadPost_content_404_renders_body :
    env404.fetchUrl "posts/a.md" =
        Except.ok { status := 404, body := "<html>404 Not Found</html>" } ∧
    loadPost env404 =
      PageOutcome.rendered (composePost post404 "<html>404 Not Found</html>")
        (some "Hello - My Blog") ∧
    composePost post404 "<html>404 Not Found</html>" ≠ notFoundHtml ∧
    StrContains (composePost post404 "<html>404 Not Found</html>")
      "<html>404 Not Found</html>" := by
  refine ⟨rfl, rfl, by decide, ?_⟩
  exact ⟨"<div class=\"post-header\"><h1 class=\"post-title\">Hello</h1><div class=\"post-metadata\"><span class=\"post-date\">2024-01-01</span></div></div><div class=\"post-content\">",
    "</div>", by decide⟩

/-- Poll delay of the dependency gate, from `setTimeout(check, 100)`. -/
def depsPollMs : Nat := 100

/-- Time (ms after the first synchronous check) at which the gate performs
its n-th re-check: each re-check is scheduled `depsPollMs` after the last. -/
def depsCheckTime (n : Nat) : Nat := depsPollMs * n

/-- The gate condition `window.marked && window.Prism` sampled at check
`n`, where `m` and `p` give the readiness of the markdown engine and the
highlighter at each check. -/
def bothReady (m p : Nat → Bool) (n : Nat) : Bool := m n && p n

/-- The promise of `waitForDependencies` resolves at check `n`: both
dependencies are ready at `n` and no earlier check saw them both ready. -/
def GateResolvesAt (m p : Nat → Bool) (n : Nat) : Prop :=
  bothReady m p n = true ∧ ∀ k, k < n → bothReady m p k = false

/-- Event `e` is observable in a full run of `loadPost`: the leading
`await waitForDependencies()` must resolve at some check, and afterwards
`e` occurs in the trace of the rest of the function. -/
def FullRunEvent (m p : Nat → Bool) (env : PostPageEnv) (e : PageEvent) : Prop :=
  (∃ n, GateResolvesAt m p n) ∧ e ∈ (loadPostRun env).2

/-- A concrete environment carrying no `id` query parameter. -/
def envNoId : PostPageEnv :=
  { postId := none,
    fetchUrl := fun _ => Except.error "network",
    parseJson := fun _ => Except.error "parse",
    markedParse := fun s => s,
    highlightAllOk := Except.ok () }

/-- C6 counterexample: with no `id` present, the redirect is NOT immediate:
`loadPost` first awaits the dependency gate, so in a run where the markdown
engine and highlighter never become ready the view never transitions to the
redirect at all. -/
theorem loadPost_no_id_redirect_not_immediate :
    envNoId.postId = none ∧
    ¬ FullRunEvent (fun _ => false) (fun _ => false) envNoId PageEvent.redirected := by
  refine ⟨rfl, ?_⟩
  rintro ⟨⟨n, hn, -⟩, -⟩
  simp [bothReady] at hn

/-- C6 (amended): once the dependency gate has resolved, absence of the
`id` query parameter sends `loadPost` straight to the redirect to
`index.html`; the try block is never entered, so neither the catalog fetch
nor the content fetch is issued. -/
theorem loadPost_no_id_redirects_no_fetch
    (env : PostPageEnv) (h : env.postId = none) :
    loadPost env = PageOutcome.redirect "index.html" ∧
    (loadPostRun env).2 = [PageEvent.depsReady, PageEvent.redirected] ∧
    PageEvent.catalogFetched ∉ (loadPostRun env).2 ∧
    PageEvent.contentFetched ∉ (loadPostRun env).2 := by
  refine ⟨?_, ?_, ?_, ?_⟩ <;> simp [loadPost, loadPostRun, h]

/-- C6 witness: the amended theorem applied to the concrete `envNoId`. -/
theorem loadPost_no_id_redirects_no_fetch_witness :
    loadPost envNoId = PageOutcome.redirect "index.html" ∧
    (loadPostRun envNoId).2 = [PageEvent.depsReady, PageEvent.redirected] ∧
    PageEvent.catalogFetched ∉ (loadPostRun envNoId).2 ∧
    PageEvent.contentFetched ∉ (loadPostRun envNoId).2 :=
  loadPost_no_id_redirects_no_fetch envNoId rfl

/-- `a` occurs strictly before `b` in the list `l`. -/
def OccursBefore (a b : PageEvent) (l : List PageEvent) : Prop :=
  ∃ l1 l2 l3, l = l1 ++ a :: (l2 ++ b :: l3)

/-- The event trace of `loadPostRun` is one of six concrete sequences, each
beginning with the resolution of the dependency gate. -/
theorem loadPostRun_trace_cases (env : PostPageEnv) :
    (loadPostRun env).2 = [PageEvent.depsReady, PageEvent.redirected] ∨
    (loadPostRun env).2 = [PageEvent.depsReady, PageEvent.notFoundShown] ∨
    (loadPostRun env).2 =
      [PageEvent.depsReady, PageEvent.catalogFetched, PageEvent.notFoundShown] ∨
    (loadPostRun env).2 =
      [PageEvent.depsReady, PageEvent.catalogFetched, PageEvent.catalogParsed,
       PageEvent.notFoundShown] ∨
    (loadPostRun env).2 =
      [PageEvent.depsReady, PageEvent.catalogFetched, PageEvent.catalogParsed,
       PageEvent.contentFetched, PageEvent.contentRead, PageEvent.domRendered,
       PageEvent.notFoundShown] ∨
    (loadPostRun env).2 =
      [PageEvent.depsReady, PageEvent.catalogFetched, PageEvent.catalogParsed,
       PageEvent.contentFetched, PageEvent.contentRead, PageEvent.domRendered] := by
  unfold loadPostRun
  repeat' split
  all_goals simp

/-- C5: the dependency gate re-checks readiness every 100 ms (the fixed
`setTimeout` delay), resolves only at the first check where the markdown
engine and highlighter are both ready, suspends forever when they never
are, and in every run the render of the post content comes strictly after
both the gate resolution and the resolution of the content fetch. -/
theorem loadPost_render_ordering :
    depsPollMs = 100 ∧
    (∀ n, depsCheckTime (n + 1) = depsCheckTime n + 100) ∧
    (∀ m p, (∀ n, bothReady m p n = false) → ¬ ∃ n, GateResolvesAt m p n) ∧
    (∀ env : PostPageEnv, PageEvent.domRendered ∈ (loadPostRun env).2 →
        OccursBefore PageEvent.depsReady PageEvent.domRendered (loadPostRun env).2 ∧
        OccursBefore PageEvent.contentRead PageEvent.domRendered (loadPostRun env).2) := by
  refine ⟨rfl, fun n => by simp [depsCheckTime, depsPollMs, Nat.mul_add], ?_, ?_⟩
  · rintro m p hnever ⟨n, hn, -⟩
    rw [hnever n] at hn
    exact Bool.false_ne_true hn
  · intro env hmem
    rcases loadPostRun_trace_cases env with h | h | h | h | h | h <;> rw [h] at hmem ⊢ <;>
      first
      | exact absurd hmem (by decide)
      | exact ⟨⟨[], [PageEvent.catalogFetched, PageEvent.catalogParsed,
            PageEvent.contentFetched, PageEvent.contentRead], [PageEvent.notFoundShown], rfl⟩,
          ⟨[PageEvent.depsReady, PageEvent.catalogFetched, PageEvent.catalogParsed,
            PageEvent.contentFetched], [], [PageEvent.notFoundShown], rfl⟩⟩
      | exact ⟨⟨[], [PageEvent.catalogFetched, PageEvent.catalogParsed,
            PageEvent.contentFetched, PageEvent.contentRead], [], rfl⟩,
          ⟨[PageEvent.depsReady, PageEvent.catalogFetched, PageEvent.catalogParsed,
            PageEvent.contentFetched], [], [], rfl⟩⟩

/-- Environment of a fully successful single-post load (content fetch
resolves with status 200). -/
def envOk : PostPageEnv :=
  { postId := some "a",
    fetchUrl := fun url =>
      if url == "posts/posts.json" then Except.ok { status := 200, body := "[ catalog ]" }
      else if url == "posts/a.md" then Except.ok { status := 200, body := "# Hello" }
      else Except.error "network",
    parseJson := fun _ => Except.ok [post404],
    markedParse := fun s => s,
    highlightAllOk := Except.ok () }

set_option maxRecDepth 100000 in
/-- C5 witness: the ordering theorem applied to never-ready dependencies
(no gate resolution) and to the concrete successful run `envOk`. -/
theorem loadPost_render_ordering_witness :
    (¬ ∃ n, GateResolvesAt (fun _ => false) (fun _ => false) n) ∧
    OccursBefore PageEvent.contentRead PageEvent.domRendered (loadPostRun envOk).2 :=
  ⟨loadPost_render_ordering.2.2.1 (fun _ => false) (fun _ => false) (fun _ => rfl),
   (loadPost_render_ordering.2.2.2 envOk (by decide)).2⟩

/-- The `Prism.languages` registry: a tokenizer per registered language
identifier. A tokenizer either produces token-annotated markup or throws
(`Except.error`). -/
def PrismLanguages : Type := String → Option (String → Except String String)

/-- The `highlight` callback of `post.js`:
`if (lang && Prism.languages[lang])` guards (a falsy `lang` is `undefined`
or the empty string), `Prism.highlight` runs inside `try`, a thrown error is
logged and swallowed, and every failure path returns the raw `code`. -/
def highlight (languages : PrismLanguages) (code : String) (lang : Option String) : String :=
  match lang with
  | some l =>
      if l ≠ "" then
        match languages l with
        | some tok =>
            match tok code with
            | Except.ok out => out
            | Except.error _ => code
        | none => code
      else code
  | none => code

/-- Modelled from the spec: HTML escaping of one character, as performed by
the markdown engine (an external collaborator, not part of the repository)
when it inserts literal code text. -/
def escapeChar (c : Char) : String :=
  if c = '&' then "&amp;"
  else if c = '<' then "&lt;"
  else if c = '>' then "&gt;"
  else if c = '"' then "&quot;"
  else if c = Char.ofNat 39 then "&#39;"
  else String.singleton c

/-- Modelled from the spec: HTML escaping of a string, applied by the
markdown engine to literal code text. -/
def escapeHtml (s : String) : String :=
  String.join (s.data.map escapeChar)

/-- The language class attribute put on the code element, from the
configured class option `"language-"`. -/
def codeLangClass (lang : Option String) : String :=
  match lang with
  | some l => if l ≠ "" then " class=\"language-" ++ l ++ "\"" else ""
  | none => ""

/-- Modelled from the spec: the markdown engine renders each fenced code
block by calling the configured highlight hook; when the hook output equals
the input (the fallback path) the engine inserts the ESCAPED literal code
text, otherwise the hook's markup. The hook itself is the repository's
`highlight`. -/
def renderCodeBlock (languages : PrismLanguages) (lang : Option String) (code : String) :
    String :=
  let out := highlight languages code lang
  if out == code then
    "<pre><code" ++ codeLangClass lang ++ ">" ++ escapeHtml code ++ "</code></pre>"
  else
    "<pre><code" ++ codeLangClass lang ++ ">" ++ out ++ "</code></pre>"

/-- A markdown document seen at the granularity the highlighting claims
need: ordinary blocks and fenced code blocks with an optional language
tag. -/
inductive MdBlock where
  | para (text : String)
  | fenced (lang : Option String) (code : String)

/-- Rendering of a single block: ordinary blocks go to the engine's own
rendering (a parameter), fenced blocks go through the code renderer. -/
def renderBlock (languages : PrismLanguages) (paraRender : String → String) :
    MdBlock → String
  | MdBlock.para t => paraRender t
  | MdBlock.fenced lang code => renderCodeBlock languages lang code

/-- Block-wise rendering of a document. -/
def renderDoc (languages : PrismLanguages) (paraRender : String → String)
    (doc : List MdBlock) : List String :=
  doc.map (renderBlock languages paraRender)

/-- The highlight hook falls back to the raw code whenever the tagged
language has no registered tokenizer or the tokenizer throws. -/
theorem highlight_fallback (languages : PrismLanguages) (code : String)
    (lang : Option String)
    (hfail : (∀ l, lang = some l → languages l = none) ∨
      (∃ l tok e, lang = some l ∧ languages l = some tok ∧ tok code = Except.error e)) :
    highlight languages code lang = code := by
  cases lang with
  | none => rfl
  | some l =>
      by_cases hl : l = ""
      · simp [highlight, hl]
      · rcases hfail with hnone | ⟨l2, tok, e, heq, htok, herr⟩
        · simp [highlight, hl, hnone l rfl]
        · cases heq
          simp [highlight, hl, htok, herr]

/-- C4: a fenced block whose tagged language has no registered tokenizer,
or whose tokenization throws, renders as the escaped literal code text,
unhighlighted and without raising, and every sibling block renders exactly
as it would alone: the failure is confined to the one block. -/
theorem render_unknown_language_escapes
    (languages : PrismLanguages) (paraRender : String → String)
    (doc : List MdBlock) (i : Nat) (lang : Option String) (code : String)
    (hblock : doc.get? i = some (MdBlock.fenced lang code))
    (hfail : (∀ l, lang = some l → languages l = none) ∨
      (∃ l tok e, lang = some l ∧ languages l = some tok ∧ tok code = Except.error e)) :
    (renderDoc languages paraRender doc).get? i =
      some ("<pre><code" ++ codeLangClass lang ++ ">" ++ escapeHtml code ++ "</code></pre>") ∧
    ∀ j, j ≠ i → (renderDoc languages paraRender doc).get? j =
      (doc.get? j).map (renderBlock languages paraRender) := by
  have hfb := highlight_fallback languages code lang hfail
  have hmap : ∀ k, (renderDoc languages paraRender doc).get? k =
      (doc.get? k).map (renderBlock languages paraRender) := by
    intro k
    simp [renderDoc, List.get?_eq_getElem?, List.getElem?_map]
  constructor
  · rw [hmap, hblock]
    simp [renderBlock, renderCodeBlock, hfb]
  · intro j _
    exact hmap j

/-- A concrete tokenizer registry: `clojure` is registered but its
tokenizer throws; `js` is registered and succeeds; everything else is
unregistered. -/
def langs0 : PrismLanguages := fun l =>
  if l == "clojure" then some (fun _ => Except.error "Prism explosion")
  else if l == "js" then
    some (fun c => Except.ok ("<span class=\"token keyword\">" ++ c ++ "</span>"))
  else none

/-- A concrete three-block document whose middle block uses the throwing
tokenizer. -/
def doc0 : List MdBlock :=
  [MdBlock.para "intro",
   MdBlock.fenced (some "clojure") "(+ 1 2)",
   MdBlock.fenced (some "js") "const x = 1;"]

/-- C4 witness: the escape theorem applied to `doc0` at the throwing
`clojure` block, with the sibling independence statement instantiated. -/
theorem render_unknown_language_escapes_witness :
    (renderDoc langs0 (fun t => "<p>" ++ t ++ "</p>") doc0).get? 1 =
      some ("<pre><code" ++ codeLangClass (some "clojure") ++ ">"
        ++ escapeHtml "(+ 1 2)" ++ "</code></pre>") ∧
    ∀ j, j ≠ 1 → (renderDoc langs0 (fun t => "<p>" ++ t ++ "</p>") doc0).get? j =
      (doc0.get? j).map (renderBlock langs0 (fun t => "<p>" ++ t ++ "</p>")) :=
  render_unknown_language_escapes langs0 (fun t => "<p>" ++ t ++ "</p>") doc0 1
    (some "clojure") "(+ 1 2)" rfl
    (Or.inr ⟨"clojure", fun _ => Except.error "Prism explosion", "Prism explosion",
      rfl, rfl, rfl⟩)

/-- The configuration surface of the markdown engine that `marked.use`
touches in `post.js`. The source option name of `langPre` is the class
option set to `"language-"`. -/
structure MarkedOptions where
  gfm : Bool
  breaks : Bool
  tables : Bool
  headerIds : Bool
  mangle : Bool
  pedantic : Bool
  highlightHook : String → Option String → String
  langPre : String

/-- An argument object for `marked.use`: fields the call supplies are
`some`, omitted fields are `none`. -/
structure MarkedPatch where
  gfm : Option Bool
  breaks : Option Bool
  tables : Option Bool
  headerIds : Option Bool
  mangle : Option Bool
  pedantic : Option Bool
  highlightHook : Option (String → Option String → String)
  langPre : Option String

/-- Modelled from the spec: `marked.use` merges the supplied options into
the engine's configuration state, field by field; the engine itself is an
external collaborator, not part of the repository. -/
def markedUse (s : MarkedOptions) (u : MarkedPatch) : MarkedOptions :=
  { gfm := u.gfm.getD s.gfm,
    breaks := u.breaks.getD s.breaks,
    tables := u.tables.getD s.tables,
    headerIds := u.headerIds.getD s.headerIds,
    mangle := u.mangle.getD s.mangle,
    pedantic := u.pedantic.getD s.pedantic,
    highlightHook := u.highlightHook.getD s.highlightHook,
    langPre := u.langPre.getD s.langPre }

/-- The options object passed, identically, to BOTH `marked.use` calls of
`post.js` (the module-level call and the call inside `loadPost`): every
field is supplied, and the highlight hook is the repository's `highlight`
bound to the ambient tokenizer registry. -/
def postPagePatch (languages : PrismLanguages) : MarkedPatch :=
  { gfm := some true,
    breaks := some true,
    tables := some true,
    headerIds := some true,
    mangle := some false,
    pedantic := some false,
    highlightHook := some (fun code lang => highlight languages code lang),
    langPre := some "language-" }

/-- Engine configuration after the module-level `marked.use`, from an
arbitrary initial configuration `s0`. -/
def moduleMarkedState (languages : PrismLanguages) (s0 : MarkedOptions) : MarkedOptions :=
  markedUse s0 (postPagePatch languages)

/-- Engine configuration after the second, identical `marked.use` inside
`loadPost`. -/
def loadPostMarkedState (languages : PrismLanguages) (s0 : MarkedOptions) : MarkedOptions :=
  markedUse (moduleMarkedState languages s0) (postPagePatch languages)

/-- C7: within one page load the only engine state the scripts mutate is
the configuration, the second `marked.use` leaves the configuration exactly
where the first put it (the patch supplies every field), and therefore
`marked.parse` — a function of the configuration and the input text — gives
byte-identical output on repeated calls on the same markdown string. -/
theorem render_idempotent (languages : PrismLanguages) (s0 : MarkedOptions)
    (parse : MarkedOptions → String → String) (md : String) :
    loadPostMarkedState languages s0 = moduleMarkedState languages s0 ∧
    parse (loadPostMarkedState languages s0) md = parse (moduleMarkedState languages s0) md := by
  have hstate : loadPostMarkedState languages s0 = moduleMarkedState languages s0 := rfl
  exact ⟨hstate, by rw [hstate]⟩

/-- The image part of a listing card:
`post.image ? <img src="${post.image}" alt="${post.title}"> : ""`.
A string field is truthy only when present AND nonempty, so an absent image
and an empty-string image both yield nothing. -/
def imageHtml (post : PostRecord) : String :=
  match post.image with
  | some img =>
      if img ≠ "" then "<img src=\"" ++ img ++ "\" alt=\"" ++ post.title ++ "\">" else ""
  | none => ""

/-- The tags part of a listing card:
`post.tags ? <span class="tags">${post.tags.join(", ")}</span> : ""`.
An array is truthy even when empty, so `some []` yields an empty span while
an absent field yields nothing. -/
def tagsHtml (post : PostRecord) : String :=
  match post.tags with
  | some ts => "<span class=\"tags\">" ++ String.intercalate ", " ts ++ "</span>"
  | none => ""

/-- The excerpt text interpolated into `<p>${post.excerpt}</p>`: JavaScript
template interpolation of `undefined` produces the literal text
`undefined`. -/
def excerptText (post : PostRecord) : String :=
  match post.excerpt with
  | some e => e
  | none => "undefined"

/-- One listing card, from `createBlogPostElement`: template whitespace
elided, markup and interpolations kept in source order. -/
def createBlogPostElement (post : PostRecord) : String :=
  "<article class=\"blog-post\">" ++ imageHtml post
    ++ "<div class=\"blog-post-content\">" ++ "<h2>" ++ post.title ++ "</h2>"
    ++ "<div class=\"metadata\">" ++ "<span class=\"date\">" ++ post.date ++ "</span>"
    ++ tagsHtml post ++ "</div>"
    ++ "<p>" ++ excerptText post ++ "</p>"
    ++ "<a href=\"post.html?id=" ++ post.id ++ "\" class=\"read-more\">Read More</a>"
    ++ "</div>" ++ "</article>"

/-- The listing sort `.sort((a, b) => new Date(b.date) - new Date(a.date))`:
date descending under an ambient date parser `dateVal`. -/
def sortPostsByDateDesc (dateVal : String → Int) (posts : List PostRecord) :
    List PostRecord :=
  posts.mergeSort (fun a b => decide (dateVal b.date ≤ dateVal a.date))

/-- The cards of `renderBlogPosts`, in display order, before joining. -/
def listingCards (dateVal : String → Int) (posts : List PostRecord) : List String :=
  (sortPostsByDateDesc dateVal posts).map createBlogPostElement

/-- The full listing markup assigned to `blogSection.innerHTML`:
the cards joined with `""`. -/
def composeListing (dateVal : String → Int) (posts : List PostRecord) : String :=
  String.join (listingCards dateVal posts)

/-- A nonempty string stays nonempty under appending on the right. -/
theorem str_append_ne_empty_left (a b : String) (h : a ≠ "") : a ++ b ≠ "" := by
  intro he
  apply h
  have hdata : a.data ++ b.data = ([] : List Char) := by
    have hc := congrArg String.data he
    rwa [String.data_append] at hc
  exact String.ext (List.append_eq_nil.mp hdata).1

/-- A record whose `tags` field holds an EMPTY array and whose `image`
field holds the empty string: both fields are present, but the array is
truthy and the string is falsy. -/
def emptyTagsRecord : PostRecord :=
  { id := "e", title := "T", date := "2024-01-01",
    tags := some [], excerpt := some "x", image := some "" }

set_option maxRecDepth 100000 in
/-- C8 counterexample: on `emptyTagsRecord` the listing card renders an
EMPTY tags placeholder `<span class="tags"></span>` (tags are present but
empty, and an array is truthy), and omits the image element even though the
record has an `image` field (the empty string is falsy) — so neither
"omitted iff the record lacks the field" nor "never an empty placeholder"
holds as stated. -/
theorem listing_empty_placeholder_counterexample :
    emptyTagsRecord.tags = some [] ∧
    tagsHtml emptyTagsRecord = "<span class=\"tags\"></span>" ∧
    StrContains (createBlogPostElement emptyTagsRecord) "<span class=\"tags\"></span>" ∧
    emptyTagsRecord.image = some "" ∧
    imageHtml emptyTagsRecord = "" := by
  refine ⟨rfl, rfl, ?_, rfl, rfl⟩
  exact ⟨"<article class=\"blog-post\"><div class=\"blog-post-content\"><h2>T</h2><div class=\"metadata\"><span class=\"date\">2024-01-01</span>",
    "</div><p>x</p><a href=\"post.html?id=e\" class=\"read-more\">Read More</a></div></article>",
    by decide⟩

/-- C8 (amended): the listing renders exactly one card per catalog record
(sorting is a permutation), every card contains its record's title and
date, every card comes from a catalog record, and the sub-element emission
follows JavaScript truthiness: the image element is omitted exactly when
`image` is absent or the empty string, and the tags element is omitted
exactly when `tags` is absent — a present-but-empty tags array yields an
empty placeholder span instead. -/
theorem composeListing_cards (dateVal : String → Int) (posts : List PostRecord) :
    (listingCards dateVal posts).length = posts.length ∧
    (∀ post : PostRecord, StrContains (createBlogPostElement post) post.title ∧
        StrContains (createBlogPostElement post) post.date) ∧
    (∀ post : PostRecord, imageHtml post = "" ↔ (post.image = none ∨ post.image = some "")) ∧
    (∀ post : PostRecord, tagsHtml post = "" ↔ post.tags = none) ∧
    (∀ card ∈ listingCards dateVal posts, ∃ post ∈ posts, card = createBlogPostElement post) := by
  refine ⟨?_, ?_, ?_, ?_, ?_⟩
  · simp [listingCards, sortPostsByDateDesc, List.length_map, List.length_mergeSort]
  · intro post
    constructor
    · refine ⟨"<article class=\"blog-post\">" ++ imageHtml post
        ++ "<div class=\"blog-post-content\">" ++ "<h2>",
        "</h2>" ++ "<div class=\"metadata\">" ++ "<span class=\"date\">" ++ post.date
        ++ "</span>" ++ tagsHtml post ++ "</div>" ++ "<p>" ++ excerptText post ++ "</p>"
        ++ "<a href=\"post.html?id=" ++ post.id ++ "\" class=\"read-more\">Read More</a>"
        ++ "</div>" ++ "</article>", ?_⟩
      simp [createBlogPostElement, String.append_assoc]
    · refine ⟨"<article class=\"blog-post\">" ++ imageHtml post
        ++ "<div class=\"blog-post-content\">" ++ "<h2>" ++ post.title ++ "</h2>"
        ++ "<div class=\"metadata\">" ++ "<span class=\"date\">",
        "</span>" ++ tagsHtml post ++ "</div>" ++ "<p>" ++ excerptText post ++ "</p>"
        ++ "<a href=\"post.html?id=" ++ post.id ++ "\" class=\"read-more\">Read More</a>"
        ++ "</div>" ++ "</article>", ?_⟩
      simp [createBlogPostElement, String.append_assoc]
  · intro post
    cases himg : post.image with
    | none => simp [imageHtml, himg]
    | some img =>
        by_cases h : img = ""
        · simp [imageHtml, himg, h]
        · have hne : "<img src=\"" ++ img ++ "\" alt=\"" ++ post.title ++ "\">" ≠ "" :=
            str_append_ne_empty_left _ _
              (str_append_ne_empty_left _ _
                (str_append_ne_empty_left _ _
                  (str_append_ne_empty_left _ _ (by decide))))
          simp only [imageHtml, himg, if_pos h]
          constructor
          · intro habs
            exact absurd habs hne
          · rintro (hc | hc)
            · exact absurd hc (by simp)
            · exact absurd (Option.some.inj hc) h
  · intro post
    cases htags : post.tags with
    | none => simp [tagsHtml, htags]
    | some ts =>
        have hne : "<span class=\"tags\">" ++ String.intercalate ", " ts ++ "</span>" ≠ "" :=
          str_append_ne_empty_left _ _ (str_append_ne_empty_left _ _ (by decide))
        simp only [tagsHtml, htags]
        constructor
        · intro habs
          exact absurd habs hne
        · intro hc
          exact absurd hc (by simp)
  · intro card hcard
    obtain ⟨post, hpost, hrfl⟩ := List.mem_map.mp hcard
    exact ⟨post, List.mem_mergeSort.mp hpost, hrfl.symm⟩

/-- C8 witness: the amended listing theorem applied to a concrete two-post
catalog, giving two cards and the title of the first record inside its
card. -/
theorem composeListing_cards_witness :
    (listingCards (fun _ => 0) [dupFirst, dupSecond]).length = 2 ∧
    StrContains (createBlogPostElement dupFirst) "First" :=
  ⟨Eq.trans (composeListing_cards (fun _ => 0) [dupFirst, dupSecond]).1 rfl,
   ((composeListing_cards (fun _ => 0) [dupFirst, dupSecond]).2.1 dupFirst).1⟩

/-- C10: the excerpt paragraph is emitted unconditionally; when the record
has no `excerpt` field, template interpolation of `undefined` leaves the
literal text `undefined`, so the card contains `<p>undefined</p>`. -/
theorem listing_excerpt_undefined (post : PostRecord) (h : post.excerpt = none) :
    excerptText post = "undefined" ∧
    StrContains (createBlogPostElement post) "<p>undefined</p>" := by
  have hx : excerptText post = "undefined" := by simp [excerptText, h]
  refine ⟨hx, ?_⟩
  refine ⟨"<article class=\"blog-post\">" ++ imageHtml post
      ++ "<div class=\"blog-post-content\">" ++ "<h2>" ++ post.title ++ "</h2>"
      ++ "<div class=\"metadata\">" ++ "<span class=\"date\">" ++ post.date ++ "</span>"
      ++ tagsHtml post ++ "</div>",
    "<a href=\"post.html?id=" ++ post.id ++ "\" class=\"read-more\">Read More</a>"
      ++ "</div>" ++ "</article>", ?_⟩
  have hsplit : ("<p>undefined</p>" : String) = "<p>" ++ "undefined" ++ "</p>" := rfl
  rw [hsplit]
  simp only [createBlogPostElement, hx, String.append_assoc]

/-- C10 witness: the excerpt theorem applied to the concrete record
`dupFirst`, whose `excerpt` field is absent. -/
theorem listing_excerpt_undefined_witness :
    excerptText dupFirst = "undefined" ∧
    StrContains (createBlogPostElement dupFirst) "<p>undefined</p>" :=
  listing_excerpt_undefined dupFirst rfl
